import Mathlib

set_option linter.unusedVariables false

/-!
Verification of the settings core of `bevy-jam-5`.

The development shallowly embeds the bounded-volume machinery of
`src/lib.rs` (the `BoundedU8` value type, the `LevelSetting` trait with its
constructors and percentage formatting, and the `GameSettings` aggregate
built in `AppPlugin::build`) and the settings-screen adjustment pipeline of
`src/screen/settings.rs` (`handle_volume_action`, `volume_level_to_display`,
`level_to_fraction`).

Machine integers (`u8`) are modelled as `Nat` with explicit saturation at
255; `f32` values are modelled as exact rationals (`ℚ`).  Every fractional
value the program actually computes is of the form `k / 10` with
`0 ≤ k ≤ 10`, for which the rational model and IEEE `f32` agree on each
formatted output produced below.  Assertion failures (Rust `assert!` /
`assert_ne!`) are modelled as `Option.none` results of the corresponding
constructor.
-/

namespace BevyJam

/-- Model of `u8::saturating_add`, on `Nat` representations of bytes. -/
def satAdd (a b : ℕ) : ℕ := min (a + b) 255

/-- Model of `u8::saturating_sub`: truncated `Nat` subtraction coincides with the
saturating subtraction of unsigned bytes. -/
def satSub (a b : ℕ) : ℕ := a - b

namespace BoundedU8

/-- Model of `impl Add<u8> for BoundedU8<A, B>`:
`Self(self.saturating_add(rhs).min(Self::MAX))`.
`MIN`/`MAX` are the const generic bounds, `v` the wrapped byte. -/
def add (MIN MAX v rhs : ℕ) : ℕ := min (satAdd v rhs) MAX

/-- Model of `impl Sub<u8> for BoundedU8<A, B>`:
`Self(self.saturating_sub(rhs).max(Self::MIN))`. -/
def sub (MIN MAX v rhs : ℕ) : ℕ := max (satSub v rhs) MIN

/-- Model of `impl From<u8> for BoundedU8<A, B>`:
`assert!((A..=B).contains(&value)); Self(value)`.
The assertion failure is modelled as `none`. -/
def fromRaw (MIN MAX v : ℕ) : Option ℕ :=
  if MIN ≤ v ∧ v ≤ MAX then some v else none

end BoundedU8

/-- Round a rational to the nearest integer, ties to even.  This is the
rounding Rust's fixed-precision float formatting applies at the cut; for
every value this program formats the argument is never a tie, so the
choice of tie-breaking is not observable. -/
def roundHalfEven (q : ℚ) : ℤ :=
  let f := Int.floor q
  let r := q - f
  if r < 1/2 then f
  else if 1/2 < r then f + 1
  else if f % 2 = 0 then f else f + 1

/-- Rust `format!` with `{:.1}` (modulo the tie-breaking note on
`roundHalfEven`): one digit after the decimal point. -/
def fmtFixed1 (q : ℚ) : String :=
  let n : ℕ := (roundHalfEven (q * 10)).toNat
  Nat.repr (n / 10) ++ "." ++ String.mk [Nat.digitChar (n % 10)]

/-- Rust `format!` with `{:.3}`: three digits after the decimal point. -/
def fmtFixed3 (q : ℚ) : String :=
  let n : ℕ := (roundHalfEven (q * 1000)).toNat
  Nat.repr (n / 1000) ++ "." ++
    String.mk [Nat.digitChar (n / 100 % 10), Nat.digitChar (n / 10 % 10),
      Nat.digitChar (n % 10)]

namespace LevelSetting

/-- Model of `const DIFF: u8 = Self::MAX - Self::MIN` (u8 subtraction, so `Nat`
truncated subtraction). -/
def DIFF (MIN MAX : ℕ) : ℕ := MAX - MIN

/-- Model of `fn fraction(&self) -> f32 { (*self - MIN) as f32 / DIFF as f32 }`.
The inner `*self - MIN` is u8 subtraction, hence `Nat` subtraction before
the cast to the rational model of `f32`. -/
def fraction (MIN MAX v : ℕ) : ℚ :=
  ((v - MIN : ℕ) : ℚ) / ((DIFF MIN MAX : ℕ) : ℚ)

/-- Model of `fn from_fraction(frac: f32) -> Self`: asserts `frac ∈ [0, 1]`, then
`from_raw((DIFF as f32 * frac) as u8 + MIN)`.  The `as u8` cast truncates
toward zero (and clamps below at 0), modelled by `Int.toNat ∘ Int.floor`. -/
def from_fraction (MIN MAX : ℕ) (frac : ℚ) : Option ℕ :=
  if 0 ≤ frac ∧ frac ≤ 1 then
    BoundedU8.fromRaw MIN MAX
      ((Int.floor (((DIFF MIN MAX : ℕ) : ℚ) * frac)).toNat + MIN)
  else none

/-- Model of `fn from_divisor_added(divisor: u8) -> Self`: asserts `divisor ≠ 0`,
then `from_raw(DIFF / divisor + MIN)` (integer division). -/
def from_divisor_added (MIN MAX d : ℕ) : Option ℕ :=
  if d = 0 then none
  else BoundedU8.fromRaw MIN MAX (DIFF MIN MAX / d + MIN)

/-- Model of `fn from_divisor_removed(divisor: u8) -> Self`: asserts `divisor ≠ 0`,
then `from_raw(MAX - DIFF / divisor)`. -/
def from_divisor_removed (MIN MAX d : ℕ) : Option ℕ :=
  if d = 0 then none
  else BoundedU8.fromRaw MIN MAX (MAX - DIFF MIN MAX / d)

/-- Model of `fn from_max() -> Self { Self::from_raw(Self::MAX) }`. -/
def from_max (MIN MAX : ℕ) : Option ℕ := BoundedU8.fromRaw MIN MAX MAX

/-- Model of `fn percent_display(&self) -> String { format!("\x7b:.1\x7d%", self.fraction() * 100f32) }`. -/
def percent_display (MIN MAX v : ℕ) : String :=
  fmtFixed1 (fraction MIN MAX v * 100) ++ "%"

end LevelSetting

/-- The type `VolumeSetting` wraps `BoundedU8<0, 10>`; its bounds. -/
def VolumeSetting.MIN : ℕ := 0

/-- Upper bound of `VolumeSetting`. -/
def VolumeSetting.MAX : ℕ := 10

/-- The constant `VolumeSetting::DIFF = MAX - MIN = 10`. -/
def VolumeSetting.DIFF : ℕ := LevelSetting.DIFF VolumeSetting.MIN VolumeSetting.MAX

/-- Model of `GameSettings` (from `src/lib.rs`): three `VolumeSetting` fields, each
modelled by the raw byte it wraps. -/
structure GameSettings where
  global_volume_level : ℕ
  soundtrack_volume_level_relative : ℕ
  sfx_volume_level_relative : ℕ
deriving DecidableEq

/-- The `GameSettings` value constructed in `AppPlugin::build`:
`global_volume_level = VolumeSetting::from_divisor_added(2)`,
`soundtrack_volume_level_relative = VolumeSetting::from_divisor_removed(VolumeSetting::DIFF)`,
`sfx_volume_level_relative = VolumeSetting::from_divisor_removed(VolumeSetting::DIFF / 2)`.
`none` if any constructor assertion fails. -/
def appPluginSettings : Option GameSettings :=
  match
    LevelSetting.from_divisor_added VolumeSetting.MIN VolumeSetting.MAX 2,
    LevelSetting.from_divisor_removed VolumeSetting.MIN VolumeSetting.MAX
      VolumeSetting.DIFF,
    LevelSetting.from_divisor_removed VolumeSetting.MIN VolumeSetting.MAX
      (VolumeSetting.DIFF / 2)
  with
  | some g, some st, some fx =>
    some { global_volume_level := g
           soundtrack_volume_level_relative := st
           sfx_volume_level_relative := fx }
  | _, _, _ => none

/-- Modelled from the spec: `VOLUME_INCREMENTS`, imported by
`src/screen/settings.rs` from the crate root but not declared under the
given sources; the spec fixes the volume bounds as `[0, 10]`, so the number
of increments is 10. -/
def VOLUME_INCREMENTS : ℕ := 10

/-- Modelled from the spec: `MAX_VOLUME`, imported by
`src/screen/settings.rs` from the crate root but not declared there; the
spec calls it the fixed maximum gain constant, and the in-crate
`From<&VolumeSetting> for Volume` conversion in `src/lib.rs` fixes the
value `0.35`. -/
def MAX_VOLUME : ℚ := 35 / 100

/-- Model of `fn level_to_fraction(level: u8) -> f32 { level as f32 / VOLUME_INCREMENTS as f32 }`
(from `src/screen/settings.rs`). -/
def level_to_fraction (level : ℕ) : ℚ :=
  (level : ℚ) / (VOLUME_INCREMENTS : ℚ)

/-- Model of `fn volume_level_to_display(level: u8) -> String { format!("\x7b:.3\x7d", level_to_fraction(level)) }`
(from `src/screen/settings.rs`). -/
def volume_level_to_display (level : ℕ) : String :=
  fmtFixed3 (level_to_fraction level)

/-- Model of `enum VolumeAction { Up, Down }` from `src/screen/settings.rs`. -/
inductive VolumeAction where
  | Up
  | Down
deriving DecidableEq

/-- The state touched by `handle_volume_action` for one pressed intent:
the persisted `settings.volume_level`, the text of the single
`VolumeDisplayMarker` element, and the global volume scalar handed to the
audio consumer. -/
structure SettingsScreenState where
  volume_level : ℕ
  display_text : String
  global_volume : ℚ
deriving DecidableEq

/-- One pressed-interaction iteration of `handle_volume_action`
(from `src/screen/settings.rs`): saturating unit step clamped to
`VOLUME_INCREMENTS` for `Up`, saturating unit decrement for `Down`; the
display text becomes `volume_level_to_display` of the new level and the
global volume becomes `MAX_VOLUME * level_to_fraction(new level)`. -/
def handle_volume_action (action : VolumeAction) (s : SettingsScreenState) :
    SettingsScreenState :=
  let lvl : ℕ :=
    match action with
    | .Up => min (satAdd s.volume_level 1) VOLUME_INCREMENTS
    | .Down => satSub s.volume_level 1
  { volume_level := lvl
    display_text := volume_level_to_display lvl
    global_volume := MAX_VOLUME * level_to_fraction lvl }

/-! ### Helper lemmas -/

/-- Range of the raw byte produced by `from_fraction`: the truncated
product `⌊DIFF * f⌋` never exceeds `DIFF` when `f ≤ 1`. -/
theorem floor_diff_mul_le (MIN MAX : ℕ) (f : ℚ) (hf : f ≤ 1) :
    (Int.floor (((LevelSetting.DIFF MIN MAX : ℕ) : ℚ) * f)).toNat ≤
      LevelSetting.DIFF MIN MAX := by
  have h1 : ((LevelSetting.DIFF MIN MAX : ℕ) : ℚ) * f ≤
      ((LevelSetting.DIFF MIN MAX : ℕ) : ℚ) :=
    mul_le_of_le_one_right (by positivity) hf
  have h2 := Int.floor_le_floor h1
  rw [Int.floor_natCast] at h2
  exact Int.toNat_le.mpr h2

/-- Helper: `BoundedU8.fromRaw` succeeds exactly on bytes inside the bounds. -/
theorem fromRaw_eq_some (MIN MAX v : ℕ) (h1 : MIN ≤ v) (h2 : v ≤ MAX) :
    BoundedU8.fromRaw MIN MAX v = some v := by
  unfold BoundedU8.fromRaw
  simp [h1, h2]

/-- Helper: `Nat.digitChar` sends every value below 10 to a decimal digit
character. -/
theorem digitChar_isDigit (m : ℕ) (h : m < 10) :
    (Nat.digitChar m).isDigit = true := by
  interval_cases m <;> rfl

/-- Every character pushed by `Nat.toDigitsCore` at base 10 is a decimal
digit. -/
theorem toDigitsCore_all_isDigit (fuel : ℕ) :
    ∀ (n : ℕ) (ds : List Char), (∀ c ∈ ds, c.isDigit = true) →
      ∀ c ∈ Nat.toDigitsCore 10 fuel n ds, c.isDigit = true := by
  induction fuel with
  | zero =>
    intro n ds hds c hc
    simp only [Nat.toDigitsCore] at hc
    exact hds c hc
  | succ f ih =>
    intro n ds hds c hc
    simp only [Nat.toDigitsCore] at hc
    by_cases h : n / 10 = 0
    · rw [if_pos h] at hc
      rcases List.mem_cons.mp hc with h1 | h1
      · rw [h1]
        exact digitChar_isDigit _ (Nat.mod_lt _ (by decide))
      · exact hds c h1
    · rw [if_neg h] at hc
      refine ih (n / 10) (Nat.digitChar (n % 10) :: ds) ?_ c hc
      intro c' hc'
      rcases List.mem_cons.mp hc' with h1 | h1
      · rw [h1]
        exact digitChar_isDigit _ (Nat.mod_lt _ (by decide))
      · exact hds c' h1

/-- Helper: `Nat.toDigitsCore` never shrinks a nonempty accumulator away. -/
theorem toDigitsCore_cons_ne_nil (fuel n : ℕ) (c : Char) (tl : List Char) :
    Nat.toDigitsCore 10 fuel n (c :: tl) ≠ [] := by
  have h := Nat.toDigitsCore_lens_eq 10 fuel n c tl
  intro hnil
  rw [hnil] at h
  simp at h

/-- The base-10 digit list of any natural number is nonempty. -/
theorem toDigits_ne_nil (n : ℕ) : Nat.toDigits 10 n ≠ [] := by
  unfold Nat.toDigits
  simp only [Nat.toDigitsCore]
  by_cases h : n / 10 = 0
  · simp [h]
  · rw [if_neg h]
    exact toDigitsCore_cons_ne_nil _ _ _ _

/-- Every character of `Nat.repr` is a decimal digit. -/
theorem repr_all_isDigit (n : ℕ) :
    ∀ c ∈ (Nat.repr n).data, c.isDigit = true := by
  intro c hc
  refine toDigitsCore_all_isDigit (n + 1) n [] ?_ c hc
  intro c' hc'
  simp at hc'

/-- Helper: `Nat.repr` never returns the empty string. -/
theorem repr_ne_empty (n : ℕ) : Nat.repr n ≠ "" := by
  intro h
  apply toDigits_ne_nil n
  have : (Nat.repr n).data = [] := by
    rw [h]
  exact this

/-- Helper: `roundHalfEven` of a nonnegative rational is nonnegative. -/
theorem roundHalfEven_nonneg (q : ℚ) (hq : 0 ≤ q) : 0 ≤ roundHalfEven q := by
  have hf : 0 ≤ Int.floor q := Int.floor_nonneg.mpr hq
  unfold roundHalfEven
  dsimp only
  split
  · exact hf
  · split
    · omega
    · split
      · exact hf
      · omega

/-- The fraction of any level is nonnegative (its numerator and
denominator are casts of naturals). -/
theorem fraction_nonneg (MIN MAX v : ℕ) :
    0 ≤ LevelSetting.fraction MIN MAX v := by
  unfold LevelSetting.fraction
  positivity

end BevyJam

namespace BevyJam

/-! ### Claim theorems -/

/-- C2: for every `BoundedU8` with `raw ∈ [MIN, MAX]` (bounds of byte size)
and every `u8` delta, both `add delta` and `sub delta` land inside
`[MIN, MAX]`, whatever the magnitude of the delta. -/
theorem add_sub_mem_bounds (MIN MAX v d : ℕ) (hMAX : MAX ≤ 255)
    (h1 : MIN ≤ v) (h2 : v ≤ MAX) :
    (MIN ≤ BoundedU8.add MIN MAX v d ∧ BoundedU8.add MIN MAX v d ≤ MAX) ∧
    (MIN ≤ BoundedU8.sub MIN MAX v d ∧ BoundedU8.sub MIN MAX v d ≤ MAX) := by
  unfold BoundedU8.add BoundedU8.sub satAdd satSub
  omega

/-- C2 witness at `[MIN, MAX] = [3, 10]`, `v = 7`, `d = 200`. -/
theorem add_sub_mem_bounds_witness :
    (10 : ℕ) ≤ 255 ∧ (3 : ℕ) ≤ 7 ∧ (7 : ℕ) ≤ 10 ∧
    ((3 ≤ BoundedU8.add 3 10 7 200 ∧ BoundedU8.add 3 10 7 200 ≤ 10) ∧
      (3 ≤ BoundedU8.sub 3 10 7 200 ∧ BoundedU8.sub 3 10 7 200 ≤ 10)) :=
  ⟨by decide, by decide, by decide,
    add_sub_mem_bounds 3 10 7 200 (by decide) (by decide) (by decide)⟩

/-- C3: `add delta` is `min (raw + delta) MAX` computed without
wraparound (the u8-level saturation at 255 is absorbed by the clamp at
`MAX ≤ 255`), and `sub delta` is `max (raw - delta) MIN` over the
integers. -/
theorem add_eq_min_and_sub_eq_max (MIN MAX v d : ℕ) (hMAX : MAX ≤ 255) :
    BoundedU8.add MIN MAX v d = min (v + d) MAX ∧
    (BoundedU8.sub MIN MAX v d : ℤ) = max ((v : ℤ) - (d : ℤ)) (MIN : ℤ) := by
  unfold BoundedU8.add BoundedU8.sub satAdd satSub
  omega

/-- C3 witness at `[MIN, MAX] = [0, 10]`, `v = 250`, `d = 10`
(the unsaturated sum `260` exceeds 255). -/
theorem add_eq_min_and_sub_eq_max_witness :
    (10 : ℕ) ≤ 255 ∧
    (BoundedU8.add 0 10 250 10 = min (250 + 10) 10 ∧
      (BoundedU8.sub 0 10 250 10 : ℤ) = max ((250 : ℤ) - (10 : ℤ)) (0 : ℤ)) :=
  ⟨by decide, add_eq_min_and_sub_eq_max 0 10 250 10 (by decide)⟩

/-- C8: for bounds with `MIN ≤ MAX`, nonzero `DIFF` (the spec's validity
requirement for the fractional capability) and raw `v ∈ [MIN, MAX]`, the
fraction `(raw - MIN) / DIFF` lies in `[0, 1]`. -/
theorem fraction_mem_unitInterval (MIN MAX v : ℕ)
    (hD : LevelSetting.DIFF MIN MAX ≠ 0) (h1 : MIN ≤ v) (h2 : v ≤ MAX) :
    0 ≤ LevelSetting.fraction MIN MAX v ∧
      LevelSetting.fraction MIN MAX v ≤ 1 := by
  have hDpos : (0 : ℚ) < ((LevelSetting.DIFF MIN MAX : ℕ) : ℚ) := by
    exact_mod_cast Nat.pos_of_ne_zero hD
  constructor
  · exact div_nonneg (by positivity) hDpos.le
  · rw [LevelSetting.fraction, div_le_one hDpos]
    have : v - MIN ≤ LevelSetting.DIFF MIN MAX := by
      unfold LevelSetting.DIFF
      omega
    exact_mod_cast this

/-- C8 witness at `[MIN, MAX] = [0, 10]`, `v = 7`. -/
theorem fraction_mem_unitInterval_witness :
    LevelSetting.DIFF 0 10 ≠ 0 ∧ (0 : ℕ) ≤ 7 ∧ (7 : ℕ) ≤ 10 ∧
    (0 ≤ LevelSetting.fraction 0 10 7 ∧ LevelSetting.fraction 0 10 7 ≤ 1) :=
  ⟨by decide, by decide, by decide,
    fraction_mem_unitInterval 0 10 7 (by decide) (by decide) (by decide)⟩

/-- C10: the inline raw-byte arithmetic of `handle_volume_action` agrees
with the `BoundedU8<0, 10>` operations: for every level in `[0, 10]`,
`level.saturating_add(1).min(VOLUME_INCREMENTS)` equals `add 1` and
`level.saturating_sub(1)` equals `sub 1`. -/
theorem inline_arith_refines_boundedU8 (level : ℕ) (h : level ≤ 10) :
    min (satAdd level 1) VOLUME_INCREMENTS = BoundedU8.add 0 10 level 1 ∧
    satSub level 1 = BoundedU8.sub 0 10 level 1 := by
  unfold BoundedU8.add BoundedU8.sub satAdd satSub VOLUME_INCREMENTS
  omega

/-- C10 witness at `level = 10` (the saturating edge). -/
theorem inline_arith_refines_boundedU8_witness :
    (10 : ℕ) ≤ 10 ∧
    (min (satAdd 10 1) VOLUME_INCREMENTS = BoundedU8.add 0 10 10 1 ∧
      satSub 10 1 = BoundedU8.sub 0 10 10 1) :=
  ⟨by decide, inline_arith_refines_boundedU8 10 (by decide)⟩

/-- C4: for usable bounds (`MIN ≤ MAX`), construction fails exactly under
the specified conditions: `from_raw` fails iff the byte is outside
`[MIN, MAX]` and otherwise returns it unchanged, `from_fraction` fails iff
the fraction is outside `[0, 1]`, and the two divisor constructors fail
iff the divisor is zero. -/
theorem constructor_assertion_conditions (MIN MAX b d : ℕ) (f : ℚ)
    (hMM : MIN ≤ MAX) :
    (BoundedU8.fromRaw MIN MAX b = none ↔ ¬ (MIN ≤ b ∧ b ≤ MAX)) ∧
    (MIN ≤ b → b ≤ MAX → BoundedU8.fromRaw MIN MAX b = some b) ∧
    (LevelSetting.from_fraction MIN MAX f = none ↔ ¬ (0 ≤ f ∧ f ≤ 1)) ∧
    (LevelSetting.from_divisor_added MIN MAX d = none ↔ d = 0) ∧
    (LevelSetting.from_divisor_removed MIN MAX d = none ↔ d = 0) := by
  have hdiv : LevelSetting.DIFF MIN MAX / d ≤ MAX - MIN :=
    Nat.div_le_self (LevelSetting.DIFF MIN MAX) d
  have hdiv0 : 0 ≤ LevelSetting.DIFF MIN MAX / d := Nat.zero_le _
  refine ⟨?_, ?_, ?_, ?_, ?_⟩
  · unfold BoundedU8.fromRaw
    split <;> simp_all
  · intro h1 h2
    exact fromRaw_eq_some MIN MAX b h1 h2
  · by_cases hf : 0 ≤ f ∧ f ≤ 1
    · have hle : (Int.floor (((LevelSetting.DIFF MIN MAX : ℕ) : ℚ) *
          f)).toNat ≤ MAX - MIN := floor_diff_mul_le MIN MAX f hf.2
      rw [LevelSetting.from_fraction, if_pos hf,
        fromRaw_eq_some _ _ _ (by omega) (by omega)]
      simp [hf]
    · rw [LevelSetting.from_fraction, if_neg hf]
      simp [hf]
  · by_cases hd : d = 0
    · simp [LevelSetting.from_divisor_added, hd]
    · rw [LevelSetting.from_divisor_added, if_neg hd,
        fromRaw_eq_some _ _ _ (by omega) (by omega)]
      simp [hd]
  · by_cases hd : d = 0
    · simp [LevelSetting.from_divisor_removed, hd]
    · rw [LevelSetting.from_divisor_removed, if_neg hd,
        fromRaw_eq_some _ _ _ (by omega) (by omega)]
      simp [hd]

/-- C4 witness at bounds `[0, 10]`, byte `11`, divisor `0`, fraction `2`
(all three failing conditions hold and are reported, and `from_raw 7`
succeeds unchanged). -/
theorem constructor_assertion_conditions_witness :
    (0 : ℕ) ≤ 10 ∧
    ((BoundedU8.fromRaw 0 10 11 = none ↔ ¬ ((0 : ℕ) ≤ 11 ∧ (11 : ℕ) ≤ 10)) ∧
      ((0 : ℕ) ≤ 11 → (11 : ℕ) ≤ 10 → BoundedU8.fromRaw 0 10 11 = some 11) ∧
      (LevelSetting.from_fraction 0 10 2 = none ↔ ¬ ((0 : ℚ) ≤ 2 ∧ (2 : ℚ) ≤ 1)) ∧
      (LevelSetting.from_divisor_added 0 10 0 = none ↔ (0 : ℕ) = 0) ∧
      (LevelSetting.from_divisor_removed 0 10 0 = none ↔ (0 : ℕ) = 0)) :=
  ⟨by decide, constructor_assertion_conditions 0 10 11 0 2 (by decide)⟩

/-- C5: for `MIN ≤ MAX` and nonzero divisor `d`, `from_divisor_added d`
yields raw `MIN + DIFF / d` and `from_divisor_removed d` yields raw
`MAX - DIFF / d` (integer division), and on the volume bounds `[0, 10]`:
`from_divisor_added 2` gives raw 5 displaying `"50.0%"`, and
`from_divisor_removed 10` gives raw 9 displaying `"90.0%"`. -/
theorem from_divisor_formulas (MIN MAX d : ℕ) (hMM : MIN ≤ MAX)
    (hd : d ≠ 0) :
    LevelSetting.from_divisor_added MIN MAX d =
      some (MIN + LevelSetting.DIFF MIN MAX / d) ∧
    LevelSetting.from_divisor_removed MIN MAX d =
      some (MAX - LevelSetting.DIFF MIN MAX / d) ∧
    LevelSetting.from_divisor_added 0 10 2 = some 5 ∧
    LevelSetting.percent_display 0 10 5 = "50.0%" ∧
    LevelSetting.from_divisor_removed 0 10 10 = some 9 ∧
    LevelSetting.percent_display 0 10 9 = "90.0%" := by
  have hdiv : LevelSetting.DIFF MIN MAX / d ≤ MAX - MIN :=
    Nat.div_le_self (LevelSetting.DIFF MIN MAX) d
  have hdiv0 : 0 ≤ LevelSetting.DIFF MIN MAX / d := Nat.zero_le _
  refine ⟨?_, ?_, ?_, ?_, ?_, ?_⟩
  · rw [LevelSetting.from_divisor_added, if_neg hd,
      fromRaw_eq_some _ _ _ (by omega) (by omega), Nat.add_comm]
  · rw [LevelSetting.from_divisor_removed, if_neg hd,
      fromRaw_eq_some _ _ _ (by omega) (by omega)]
  · with_unfolding_all decide
  · with_unfolding_all decide
  · with_unfolding_all decide
  · with_unfolding_all decide

/-- C5 witness at bounds `[2, 8]`, divisor `4` (`DIFF = 6`, so raw
`2 + 1 = 3` added, `8 - 1 = 7` removed). -/
theorem from_divisor_formulas_witness :
    (2 : ℕ) ≤ 8 ∧ (4 : ℕ) ≠ 0 ∧
    (LevelSetting.from_divisor_added 2 8 4 =
        some (2 + LevelSetting.DIFF 2 8 / 4) ∧
      LevelSetting.from_divisor_removed 2 8 4 =
        some (8 - LevelSetting.DIFF 2 8 / 4) ∧
      LevelSetting.from_divisor_added 0 10 2 = some 5 ∧
      LevelSetting.percent_display 0 10 5 = "50.0%" ∧
      LevelSetting.from_divisor_removed 0 10 10 = some 9 ∧
      LevelSetting.percent_display 0 10 9 = "90.0%") :=
  ⟨by decide, by decide, from_divisor_formulas 2 8 4 (by decide) (by decide)⟩

/-- C9: with `MIN ≤ MAX`, the derived constructors never trip the range
assertion inside `from_raw`: `from_fraction` succeeds on every fraction in
`[0, 1]` with a raw in `[MIN, MAX]`, both divisor constructors succeed on
every nonzero divisor with raws in `[MIN, MAX]`, and `from_max` returns
exactly `MAX`. -/
theorem derived_constructors_in_range (MIN MAX d : ℕ) (f : ℚ)
    (hMM : MIN ≤ MAX) :
    (0 ≤ f → f ≤ 1 → ∃ r, LevelSetting.from_fraction MIN MAX f = some r ∧
      MIN ≤ r ∧ r ≤ MAX) ∧
    (d ≠ 0 → ∃ r, LevelSetting.from_divisor_added MIN MAX d = some r ∧
      MIN ≤ r ∧ r ≤ MAX) ∧
    (d ≠ 0 → ∃ r, LevelSetting.from_divisor_removed MIN MAX d = some r ∧
      MIN ≤ r ∧ r ≤ MAX) ∧
    LevelSetting.from_max MIN MAX = some MAX := by
  have hdiv : LevelSetting.DIFF MIN MAX / d ≤ MAX - MIN :=
    Nat.div_le_self (LevelSetting.DIFF MIN MAX) d
  have hdiv0 : 0 ≤ LevelSetting.DIFF MIN MAX / d := Nat.zero_le _
  refine ⟨?_, ?_, ?_, ?_⟩
  · intro h0 h1
    have hle : (Int.floor (((LevelSetting.DIFF MIN MAX : ℕ) : ℚ) *
        f)).toNat ≤ MAX - MIN := floor_diff_mul_le MIN MAX f h1
    refine ⟨(Int.floor (((LevelSetting.DIFF MIN MAX : ℕ) : ℚ) * f)).toNat +
      MIN, ?_, by omega, by omega⟩
    rw [LevelSetting.from_fraction, if_pos ⟨h0, h1⟩,
      fromRaw_eq_some _ _ _ (by omega) (by omega)]
  · intro hd
    refine ⟨LevelSetting.DIFF MIN MAX / d + MIN, ?_, by omega, by omega⟩
    rw [LevelSetting.from_divisor_added, if_neg hd,
      fromRaw_eq_some _ _ _ (by omega) (by omega)]
  · intro hd
    refine ⟨MAX - LevelSetting.DIFF MIN MAX / d, ?_, by omega, by omega⟩
    rw [LevelSetting.from_divisor_removed, if_neg hd,
      fromRaw_eq_some _ _ _ (by omega) (by omega)]
  · exact fromRaw_eq_some _ _ _ hMM le_rfl

/-- C9 witness at bounds `[0, 10]`, divisor `3`, fraction `1/2`. -/
theorem derived_constructors_in_range_witness :
    (0 : ℕ) ≤ 10 ∧
    (((0 : ℚ) ≤ 1/2 → (1/2 : ℚ) ≤ 1 →
        ∃ r, LevelSetting.from_fraction 0 10 (1/2) = some r ∧
          0 ≤ r ∧ r ≤ 10) ∧
      ((3 : ℕ) ≠ 0 → ∃ r, LevelSetting.from_divisor_added 0 10 3 = some r ∧
        0 ≤ r ∧ r ≤ 10) ∧
      ((3 : ℕ) ≠ 0 → ∃ r, LevelSetting.from_divisor_removed 0 10 3 = some r ∧
        0 ≤ r ∧ r ≤ 10) ∧
      LevelSetting.from_max 0 10 = some 10) :=
  ⟨by decide, derived_constructors_in_range 0 10 3 (1/2) (by decide)⟩

/-- C6: the `GameSettings` aggregate built in `AppPlugin::build` is the
unique initial state with global level raw 5 (divisor-added construction
with divisor 2 on range `[0, 10]`), soundtrack level raw 9 and
sound-effects level raw 8 (divisor-removed constructions with the distinct
divisors 10 and 5), the two relative levels being distinct and nearer the
maximum than the global level. -/
theorem appPluginSettings_initial_state :
    appPluginSettings =
      some { global_volume_level := 5, soundtrack_volume_level_relative := 9,
             sfx_volume_level_relative := 8 } ∧
    appPluginSettings.map GameSettings.soundtrack_volume_level_relative ≠
      appPluginSettings.map GameSettings.sfx_volume_level_relative ∧
    VolumeSetting.DIFF = 10 ∧ VolumeSetting.DIFF / 2 = 5 := by
  with_unfolding_all decide

/-- C7: for every level setting value, `percent_display` is the one-decimal
rendering of `fraction() * 100`: the decimal representation of the rounded
tenths `n`, split as integer digits, a point, exactly one further digit,
and the `%` suffix. -/
theorem percent_display_shape (MIN MAX v : ℕ) :
    ∃ n : ℕ,
      (n : ℤ) = roundHalfEven (LevelSetting.fraction MIN MAX v * 100 * 10) ∧
      LevelSetting.percent_display MIN MAX v =
        Nat.repr (n / 10) ++ "." ++
          String.mk [Nat.digitChar (n % 10), '%'] ∧
      Nat.repr (n / 10) ≠ "" ∧
      (Nat.repr (n / 10)).data.all Char.isDigit = true ∧
      (Nat.digitChar (n % 10)).isDigit = true := by
  refine ⟨(roundHalfEven (LevelSetting.fraction MIN MAX v * 100 * 10)).toNat,
    ?_, ?_, repr_ne_empty _, ?_, digitChar_isDigit _ (Nat.mod_lt _ (by decide))⟩
  · refine Int.toNat_of_nonneg (roundHalfEven_nonneg _ ?_)
    have h0 := fraction_nonneg MIN MAX v
    positivity
  · apply String.ext
    simp [LevelSetting.percent_display, fmtFixed1, String.data_append]
  · rw [List.all_eq_true]
    intro c hc
    exact repr_all_isDigit _ c hc

/-- C1 counterexample: from global level raw 5 the pressed `Up` intent
does yield raw 6, but `handle_volume_action` writes the display element
from `volume_level_to_display`, giving `"0.600"`, not the
`percent_display()` string `"60.0%"` the claim requires. -/
theorem handle_volume_action_display_cex :
    (handle_volume_action VolumeAction.Up
        { volume_level := 5, display_text := volume_level_to_display 5,
          global_volume := MAX_VOLUME * level_to_fraction 5 }).volume_level
      = 6 ∧
    (handle_volume_action VolumeAction.Up
        { volume_level := 5, display_text := volume_level_to_display 5,
          global_volume := MAX_VOLUME * level_to_fraction 5 }).display_text
      = "0.600" ∧
    LevelSetting.percent_display VolumeSetting.MIN VolumeSetting.MAX 6 =
      "60.0%" ∧
    (handle_volume_action VolumeAction.Up
        { volume_level := 5, display_text := volume_level_to_display 5,
          global_volume := MAX_VOLUME * level_to_fraction 5 }).display_text
      ≠ LevelSetting.percent_display VolumeSetting.MIN VolumeSetting.MAX 6 := by
  with_unfolding_all decide

/-- C1 amended: a pressed volume intent applies the `BoundedU8<0, 10>`
unit step (`add 1` for `Up`, `sub 1` for `Down`) to the stored level, sets
the display element's text to `volume_level_to_display` of the mutated
level (the fraction rendered with three decimals, not `percent_display`),
and recomputes the audio consumer's volume as
`MAX_VOLUME * level_to_fraction(level)`; from raw 5, one `Up` intent
yields raw 6 and display text `"0.600"`. -/
theorem handle_volume_action_step (s : SettingsScreenState)
    (h : s.volume_level ≤ VOLUME_INCREMENTS) :
    (handle_volume_action VolumeAction.Up s).volume_level =
      BoundedU8.add 0 10 s.volume_level 1 ∧
    (handle_volume_action VolumeAction.Down s).volume_level =
      BoundedU8.sub 0 10 s.volume_level 1 ∧
    (∀ a, (handle_volume_action a s).display_text =
      volume_level_to_display (handle_volume_action a s).volume_level) ∧
    (∀ a, (handle_volume_action a s).global_volume =
      MAX_VOLUME * level_to_fraction (handle_volume_action a s).volume_level) ∧
    (s.volume_level = 5 →
      (handle_volume_action VolumeAction.Up s).volume_level = 6 ∧
      (handle_volume_action VolumeAction.Up s).display_text = "0.600") := by
  obtain ⟨lvl, txt, vol⟩ := s
  refine ⟨rfl, ?_, ?_, ?_, ?_⟩
  · show satSub lvl 1 = BoundedU8.sub 0 10 lvl 1
    unfold BoundedU8.sub satSub
    omega
  · intro a
    cases a <;> rfl
  · intro a
    cases a <;> rfl
  · intro h5
    simp only at h5
    subst h5
    refine ⟨rfl, ?_⟩
    show volume_level_to_display (min (satAdd 5 1) VOLUME_INCREMENTS) = "0.600"
    with_unfolding_all decide

/-- C1 amended witness at the state with level 5. -/
theorem handle_volume_action_step_witness :
    (5 : ℕ) ≤ VOLUME_INCREMENTS ∧
    ((handle_volume_action VolumeAction.Up ⟨5, "", 0⟩).volume_level =
        BoundedU8.add 0 10 5 1 ∧
      (handle_volume_action VolumeAction.Down ⟨5, "", 0⟩).volume_level =
        BoundedU8.sub 0 10 5 1 ∧
      (∀ a, (handle_volume_action a ⟨5, "", 0⟩).display_text =
        volume_level_to_display
          (handle_volume_action a ⟨5, "", 0⟩).volume_level) ∧
      (∀ a, (handle_volume_action a ⟨5, "", 0⟩).global_volume =
        MAX_VOLUME * level_to_fraction
          (handle_volume_action a ⟨5, "", 0⟩).volume_level) ∧
      ((5 : ℕ) = 5 →
        (handle_volume_action VolumeAction.Up ⟨5, "", 0⟩).volume_level = 6 ∧
        (handle_volume_action VolumeAction.Up ⟨5, "", 0⟩).display_text =
          "0.600")) :=
  ⟨by decide, handle_volume_action_step ⟨5, "", 0⟩ (by decide)⟩

end BevyJam
